import Mathlib

/-! Session-to-JWT bridge middleware (`session.go`, `setup.go`)

A shallow embedding of the Caddy `session` middleware and proofs of its
specified behaviour.

Conventions of the embedding:

* A Go map is an association list with unique keys; a `range` loop over it is a
  fold over its entries.  Every statement about a map is a statement about its
  lookups, so it holds for every order in which Go may visit the entries.
* Go strings are `String`; `int64` arithmetic wraps explicitly.
* The third-party collaborators are parameters: the JWT library and the clock
  (`Env`), the gorilla session store (`Store`), Caddy's path matcher
  (`Env.Matches`) and the next handler of the chain (`Handler.Next`).
* Effects are explicit: a handler takes the store state and the response writer
  (`World`) and returns them with its `(int, error)` pair (`Result`).  The
  request is passed by value; the one mutation of it, the injected header,
  shows in the request the next handler is called with.
* Session keys are strings, the only keys the handler writes, so the assertion
  `k.(string)` of `getSessionClaims` always holds.
-/

namespace JwtSession

/-! ## Go values and maps -/

/-- A Go `map` with string keys: an association list whose keys are unique.
`m[k]` is `AList.lookup k m`, `m[k] = v` is `AList.insert k v m` and
`delete(m, k)` is `AList.erase k m`. -/
abbrev GoMap (V : Type) := AList (fun _ : String => V)

/-- The `interface{}` values that occur as session values and token claims.  A
number is identified by its value: `int n` is the `int64` the handler writes
and also the JSON number the library reads back. -/
inductive Value where
  | str (s : String)
  | int (n : Int)
  | bool (b : Bool)
  | null
  deriving DecidableEq, Repr

/-- The type `jwt.MapClaims`, a `map[string]interface{}`. -/
abbrev MapClaims := GoMap Value

/-- Go `error` values, identified by their message. -/
abbrev Error := String

/-- Two's-complement wrap of an integer into the `int64` range. -/
def wrapInt64 (n : Int) : Int :=
  (n + 2 ^ 63) % 2 ^ 64 - 2 ^ 63

/-- The range of `int64`. -/
def isInt64 (n : Int) : Prop :=
  -(2 ^ 63) ≤ n ∧ n < 2 ^ 63

instance (n : Int) : Decidable (isInt64 n) := by
  unfold isInt64; infer_instance

/-- A `for k := range m { body }` loop over a Go map: the body runs once per
entry (here in the order the entries are listed). -/
def rangeLoop {V S : Type} (m : GoMap V) (body : S → String → V → S) (init : S) : S :=
  m.entries.foldl (fun s e => body s e.1 e.2) init

/-! ## The JWT library -/

/-- Signing methods of the JWT library: the HMAC family (`*SigningMethodHMAC`)
and every other family. -/
inductive SigningMethod where
  | HS256
  | HS384
  | HS512
  | other (alg : String)
  deriving DecidableEq, Repr

/-- The type assertion `token.Method.(*jwt.SigningMethodHMAC)`. -/
def SigningMethod.isHMAC : SigningMethod → Bool
  | .HS256 => true
  | .HS384 => true
  | .HS512 => true
  | .other _ => false

/-- The `jwt.Claims` interface: a `jwt.MapClaims` or some other implementation. -/
inductive Claims where
  | mapClaims (m : MapClaims)
  | otherClaims
  deriving DecidableEq

/-- The fields of `jwt.Token` the handler reads. -/
structure Token where
  Method : SigningMethod
  Claims : Claims
  Valid : Bool
  deriving DecidableEq

/-- The function `jwt.NewWithClaims`. -/
def NewWithClaims (method : SigningMethod) (claims : MapClaims) : Token :=
  { Method := method, Claims := .mapClaims claims, Valid := false }

/-- The library and runtime functions the handler calls. -/
structure Env where
  /-- The method `httpserver.Path(p).Matches(base)`. -/
  Matches : String → String → Bool
  /-- The function `jwt.Parse(tokenString, keyFunc)`; no token is returned with an error. -/
  Parse : String → (Token → Except Error (List UInt8)) → Except Error Token
  /-- The method `token.SignedString(key)`. -/
  SignedString : Token → List UInt8 → Except Error String
  /-- The reading `time.Now().Unix()`. -/
  now : Int

/-- The conversion `[]byte(s)`: the UTF-8 encoding of the string. -/
def bytes (s : String) : List UInt8 := s.data.flatMap String.utf8EncodeChar

/-! ## Token minting -/

/-- The claim map `makeToken` signs: the input with `iss`, `iat` and `exp` assigned. -/
def mintClaims (claims : MapClaims) (now : Int) : MapClaims :=
  let claims := claims.insert "iss" (Value.str "jwt-proxy")
  let claims := claims.insert "iat" (Value.int now)
  let claims := claims.insert "exp" (Value.int (wrapInt64 (now + 60)))
  claims

/-- The method `Handler.makeToken`. -/
def makeToken (E : Env) (secret : String) (claims : MapClaims) : Except Error String :=
  let claims := mintClaims claims E.now
  let token := NewWithClaims .HS256 claims
  match E.SignedString token (bytes secret) with
  | .error err => .error err
  | .ok tokenString => .ok tokenString

/-! ## Requests, responses and the session store -/

/-- The type `http.Header`, a `map[string][]string`. -/
abbrev Header := GoMap (List String)

/-- The method `Header.Get`: the first value stored under the key, or `""`. -/
def Header.Get (h : Header) (key : String) : String :=
  match h.lookup key with
  | some (v :: _) => v
  | _ => ""

/-- The method `Header.Set`: the key now holds the single value. -/
def Header.Set (h : Header) (key value : String) : Header :=
  h.insert key [value]

/-- The fields of `*http.Request` the handler reads or writes. -/
structure Request where
  Method : String
  Path : String
  Header : Header

/-- An `http.ResponseWriter` as a recorder observes it: the response headers,
the status line once it has been written, and the body written so far. -/
structure ResponseWriter where
  Header : Header
  Code : Option Nat
  Body : String

/-- The method `w.Write`: the first write sends the status line with 200. -/
def ResponseWriter.Write (w : ResponseWriter) (b : String) : ResponseWriter :=
  { w with Code := some (w.Code.getD 200), Body := w.Body ++ b }

/-- A gorilla `*sessions.Session`; the keys this handler touches are strings. -/
structure Session where
  Name : String
  IsNew : Bool
  Values : GoMap Value

/-- An implementation of the `sessions.Store` interface over a store state `σ`.
`Get` may update the store (its registry); `Save` persists the session and may
add cookies to the response headers.  Their errors are dropped by the handler. -/
structure Store (σ : Type) where
  Get : σ → Request → String → σ × Session
  Save : σ → Request → Header → Session → σ × Header

/-- What a request works on: the session store and the response writer. -/
structure World (σ : Type) where
  store : σ
  w : ResponseWriter

/-- What a handler leaves behind and returns: `(int, error)` plus the effects. -/
structure Result (σ : Type) where
  world : World σ
  status : Int
  err : Option Error

/-- The middleware `Handler` struct. -/
structure Handler (σ : Type) where
  Next : Request → World σ → Result σ
  Store : Store σ
  BasePath : String
  SessionPath : String
  SessionName : String
  JWTSecret : String

/-! ## The handler -/

/-- The call `strings.Replace(s, old, new, 1)` on the characters of the strings:
the first occurrence of `old` is replaced. -/
def replaceFirst : List Char → List Char → List Char → List Char
  | [], old, new => if old = [] then new else []
  | c :: cs, old, new =>
    if old.isPrefixOf (c :: cs) then new ++ (c :: cs).drop old.length
    else c :: replaceFirst cs old new

/-- The call `strings.Replace(s, old, new, 1)`. -/
def stringsReplace1 (s old new : String) : String :=
  String.mk (replaceFirst s.data old.data new.data)

/-- The key function `updateSession` passes to `jwt.Parse`. -/
def keyFunc (secret : String) (token : Token) : Except Error (List UInt8) :=
  if !token.Method.isHMAC then .error "Unexpected signing method"
  else .ok (bytes secret)

/-- The loop that clears the session: every key is deleted. -/
def clearValues (values : GoMap Value) : GoMap Value :=
  rangeLoop values (fun vs k _ => vs.erase k) values

/-- The loop that copies the claims into the session. -/
def applyClaims (values : GoMap Value) (claims : MapClaims) : GoMap Value :=
  rangeLoop claims (fun vs k v => vs.insert k v) values

/-- The two steps of `updateSession` on `session.Values`: the clearing loop when
`clearFirst`, then the copy of the claims when the token holds valid map claims. -/
def updatedValues (values : GoMap Value) (token : Token) (clearFirst : Bool) : GoMap Value :=
  let values := if clearFirst then clearValues values else values
  match token.Claims, token.Valid with
  | .mapClaims claims, true => applyClaims values claims
  | _, _ => values

/-- The method `Handler.getSessionClaims`, with the store it leaves. -/
def getSessionClaims {σ : Type} (h : Handler σ) (wd : World σ) (r : Request) :
    σ × MapClaims :=
  let (store, session) := h.Store.Get wd.store r h.SessionName
  let values := session.Values
  (store, rangeLoop values (fun claims k v => claims.insert k v) (∅ : MapClaims))

/-- The method `Handler.updateSession`. -/
def updateSession {σ : Type} (E : Env) (h : Handler σ) (wd : World σ) (r : Request)
    (clearFirst : Bool) : Result σ :=
  let header := r.Header.Get "Authorization"
  if header = "" then
    { world := wd, status := 400, err := some "no update supplied" }
  else
    let tokenString := stringsReplace1 header "Bearer " ""
    match E.Parse tokenString (keyFunc h.JWTSecret) with
    | .error err => { world := wd, status := 502, err := some err }
    | .ok token =>
      let (store, session) := h.Store.Get wd.store r h.SessionName
      let session := { session with Values := updatedValues session.Values token clearFirst }
      let (store, hdr) := h.Store.Save store r wd.w.Header session
      let w := { wd.w with Header := hdr }
      let w := w.Write "ok"
      { world := { store := store, w := w }, status := 200, err := none }

/-- The method `Handler.getToken`. -/
def getToken {σ : Type} (E : Env) (h : Handler σ) (wd : World σ) (r : Request) :
    Result σ :=
  let (store, claims) := getSessionClaims h wd r
  match makeToken E h.JWTSecret claims with
  | .error err => { world := { wd with store := store }, status := 400, err := some err }
  | .ok tokenString =>
    { world := { store := store, w := wd.w.Write tokenString }, status := 0, err := none }

/-- The method `Handler.proxyWithJWT`. -/
def proxyWithJWT {σ : Type} (E : Env) (h : Handler σ) (wd : World σ) (r : Request) :
    Result σ :=
  if r.Header.Get "Authorization" ≠ "" then
    h.Next r wd
  else
    let (store, claims) := getSessionClaims h wd r
    match makeToken E h.JWTSecret claims with
    | .error err => { world := { wd with store := store }, status := 400, err := some err }
    | .ok tokenString =>
      let r := { r with Header := r.Header.Set "Authorization" ("Bearer: " ++ tokenString) }
      h.Next r { wd with store := store }

/-- The method `Handler.ServeHTTP`. -/
def ServeHTTP {σ : Type} (E : Env) (h : Handler σ) (wd : World σ) (r : Request) :
    Result σ :=
  if E.Matches r.Path h.SessionPath then
    if r.Method = "POST" then updateSession E h wd r true
    else if r.Method = "PATCH" then updateSession E h wd r false
    else if r.Method = "GET" then getToken E h wd r
    else { world := wd, status := 400, err := some "bad method for session req" }
  else if E.Matches r.Path h.BasePath then
    proxyWithJWT E h wd r
  else
    h.Next r wd

/-! ## What the handler relies on from its libraries -/

/-- The `config` struct. -/
structure config where
  BasePath : String
  SessionPath : String
  SessionName : String
  JWTSecret : String
  SessionKey : String
  deriving DecidableEq, Repr

/-- The method `config.Handler`; `NewCookieStore` is `sessions.NewCookieStore`
applied to one key. -/
def config.Handler {σ : Type} (NewCookieStore : List UInt8 → Store σ) (cfg : config)
    (next : Request → World σ → Result σ) : Handler σ :=
  { Next := next
    Store := NewCookieStore (bytes cfg.SessionName)
    BasePath := cfg.BasePath
    SessionPath := cfg.SessionPath
    SessionName := cfg.SessionName
    JWTSecret := cfg.JWTSecret }

/-- What the dispenser of a `caddy.Controller` yields for one directive: the
arguments on the directive's line, and for every round of `c.NextBlock()` the
token `c.Val()` reads and the rest of its line that `c.RemainingArgs()` reads. -/
structure Controller where
  args : List String
  block : List (String × List String)

/-- The error `c.ArgErr()`. -/
def ArgErr : Error := "Wrong argument count or unexpected line ending"

/-- The `for c.NextBlock()` loop of `sessionParse`. -/
def parseBlock (cfg : config) : List (String × List String) → config × Option Error
  | [] => (cfg, none)
  | (k, args) :: rest =>
    if args.length ≠ 1 then (cfg, some ArgErr)
    else
      let v := args.headD ""
      if k = "sessionPath" then parseBlock { cfg with SessionPath := v } rest
      else if k = "sessionName" then parseBlock { cfg with SessionName := v } rest
      else if k = "jwtSecret" then parseBlock { cfg with JWTSecret := v } rest
      else if k = "sessionKey" then parseBlock { cfg with SessionKey := v } rest
      else (cfg, some ArgErr)

/-- The function `sessionParse`: the config and the error it returns. -/
def sessionParse (c : Controller) : config × Option Error :=
  let cfg : config :=
    { BasePath := "", SessionPath := "", SessionName := "", JWTSecret := "", SessionKey := "" }
  match c.args with
  | [] => (cfg, some ArgErr)
  | base :: _ =>
    let cfg := { cfg with BasePath := base }
    match parseBlock cfg c.block with
    | (cfg, some err) => (cfg, some err)
    | (cfg, none) =>
      if cfg.JWTSecret = "" ∨ cfg.SessionKey = "" then (cfg, some ArgErr)
      else
        let cfg := if cfg.SessionPath = "" then { cfg with SessionPath := "/token" } else cfg
        let cfg := if cfg.SessionName = "" then { cfg with SessionName := "ss" } else cfg
        (cfg, none)

/-! ## A concrete instance

An in-memory session store, a JWT library given by a finite table of tokens, and
the requests of the repository's tests.  The theorems below are applied to it. -/

/-- A session store held in memory: one value map per session name. -/
def memStore : Store (GoMap (GoMap Value)) where
  Get := fun st _ name =>
    (st, { Name := name, IsNew := (st.lookup name).isNone, Values := (st.lookup name).getD ∅ })
  Save := fun st _ hdr s => (st.insert s.Name s.Values, hdr)

/-- A JWT library that knows the tokens of a table: token string, key, claims. -/
def tableEnv (table : List (String × List UInt8 × MapClaims)) (now : Int) : Env where
  Matches := fun p base => base.data.isPrefixOf p.data
  Parse := fun tokenString keyFunc =>
    match table.find? (fun e => e.1 = tokenString) with
    | none => .error "token contains an invalid number of segments"
    | some e =>
      match keyFunc { Method := .HS256, Claims := .mapClaims e.2.2, Valid := false } with
      | .error err => .error err
      | .ok key =>
        if key = e.2.1 then .ok { Method := .HS256, Claims := .mapClaims e.2.2, Valid := true }
        else .error "signature is invalid"
  SignedString := fun token key =>
    match token.Claims with
    | .mapClaims m =>
      match table.find? (fun e => decide (e.2.1 = key) && decide (e.2.2.entries = m.entries)) with
      | some e => .ok e.1
      | none => .error "json: unsupported value"
    | .otherClaims => .error "json: unsupported type"
  now := now

/-- The claims `{"a": "one"}`. -/
def claimsA : MapClaims := (∅ : MapClaims).insert "a" (Value.str "one")

/-- The claims `{"b": "two"}`. -/
def claimsB : MapClaims := (∅ : MapClaims).insert "b" (Value.str "two")

/-- The tokens the demo library knows, all signed with `"secret"`. -/
def demoTable : List (String × List UInt8 × MapClaims) :=
  [ ("tok.a", bytes "secret", mintClaims claimsA 1000),
    ("tok.b", bytes "secret", mintClaims claimsB 1010),
    ("tok.g", bytes "secret", mintClaims claimsB 1020) ]

/-- The demo library at a clock reading. -/
def demoEnv (now : Int) : Env := tableEnv demoTable now

/-- A next handler that writes `"next"` and echoes the `Authorization` header
it received into the response headers. -/
def demoNext (r : Request) (wd : World (GoMap (GoMap Value))) :
    Result (GoMap (GoMap Value)) :=
  { world := { wd with w := { (wd.w.Write "next") with
                Header := wd.w.Header.insert "X-Seen-Authorization" [r.Header.Get "Authorization"] } },
    status := 0, err := none }

/-- The handler of the tests: base path `/base`, token endpoint `/token`. -/
def demoHandler : Handler (GoMap (GoMap Value)) where
  Next := demoNext
  Store := memStore
  BasePath := "/base"
  SessionPath := "/token"
  SessionName := "s"
  JWTSecret := "secret"

/-- A fresh response recorder. -/
def newRecorder : ResponseWriter := { Header := ∅, Code := none, Body := "" }

/-- A world with an empty store and a fresh recorder. -/
def emptyWorld : World (GoMap (GoMap Value)) := { store := ∅, w := newRecorder }

/-- A request with the given method, path and `Authorization` values. -/
def mkRequest (method path : String) (auth : List String) : Request :=
  { Method := method, Path := path,
    Header := match auth with
      | [] => ∅
      | _ => (∅ : Header).insert "Authorization" auth }

/-- A POST on the token endpoint carrying `tok.a`, minted from `{"a": "one"}`. -/
def postA : Request := mkRequest "POST" "/token" ["Bearer tok.a"]

/-- The world after `postA` on the empty store, with a fresh recorder: the
session `"s"` holds the claims of `tok.a`. -/
def worldA : World (GoMap (GoMap Value)) :=
  { store := (ServeHTTP (demoEnv 1005) demoHandler emptyWorld postA).world.store,
    w := newRecorder }

/-- The token that the demo library returns for `tok.b`. -/
def tokenB : Token :=
  { Method := .HS256, Claims := .mapClaims (mintClaims claimsB 1010), Valid := true }

/-- A POST on the token endpoint carrying `tok.b`. -/
def postB : Request := mkRequest "POST" "/token" ["Bearer tok.b"]

/-- A PATCH on the token endpoint carrying `tok.b`. -/
def patchB : Request := mkRequest "PATCH" "/token" ["Bearer tok.b"]

/-- A POST on the token endpoint without an `Authorization` header. -/
def postBare : Request := mkRequest "POST" "/token" []

/-- A POST on the token endpoint carrying a token the library rejects. -/
def postForged : Request := mkRequest "POST" "/token" ["Bearer forged"]

/-- A handler like the demo one whose base path also covers the token endpoint
and whose next handler fails. -/
def overlapHandler : Handler (GoMap (GoMap Value)) :=
  { demoHandler with
    Next := fun _ wd => { world := wd, status := 500, err := some "next was called" }
    BasePath := "/" }

/-- A DELETE on the token endpoint. -/
def deleteReq : Request := mkRequest "DELETE" "/token" []

/-- A GET on the token endpoint. -/
def getReq : Request := mkRequest "GET" "/token" []

/-- A GET outside the base path and the token endpoint, as in the tests. -/
def otherReq : Request := mkRequest "GET" "/something" []

/-- A GET under the base path without credentials, as in the tests. -/
def baseReq : Request := mkRequest "GET" "/base/something" []

/-- A GET under the base path that carries its own credentials. -/
def baseAuthReq : Request := mkRequest "GET" "/base/something" ["Basic dXNlcjpwYXNz"]

/-- A world whose session `"s"` holds the claims `{"b": "two"}`. -/
def worldB : World (GoMap (GoMap Value)) :=
  { store := (∅ : GoMap (GoMap Value)).insert "s" claimsB, w := newRecorder }

/-! ### A stateless instance

A JWT library whose tokens spell out the key and the claims, and a session store
that keeps the session in a cookie. -/

theorem foldl_insert_lookup {V : Type} (l : List (Sigma fun _ : String => V))
    (hl : l.NodupKeys) (init : GoMap V) (k : String) :
    (l.foldl (fun s e => s.insert e.1 e.2) init).lookup k
      = (l.dlookup k).orElse (fun _ => init.lookup k) := by
  induction l generalizing init with
  | nil => simp
  | cons e t ih =>
    obtain ⟨a, b⟩ := e
    rw [List.nodupKeys_cons] at hl
    rw [List.foldl_cons, ih hl.2]
    by_cases hk : k = a
    · subst hk
      have hnone : t.dlookup k = none := List.dlookup_eq_none.mpr hl.1
      simp [hnone, AList.lookup_insert]
    · have hne : k ≠ (⟨a, b⟩ : Sigma fun _ : String => V).1 := hk
      rw [List.dlookup_cons_ne t ⟨a, b⟩ hne, AList.lookup_insert_ne hk]

theorem foldl_erase_lookup {V : Type} (l : List (Sigma fun _ : String => V))
    (init : GoMap V) (k : String) :
    (l.foldl (fun s e => s.erase e.1) init).lookup k
      = if k ∈ l.keys then none else init.lookup k := by
  induction l generalizing init with
  | nil => simp
  | cons e t ih =>
    obtain ⟨a, b⟩ := e
    rw [List.foldl_cons, ih]
    by_cases hk : k = a
    · subst hk
      simp [AList.lookup_erase]
    · by_cases ht : k ∈ t.keys
      · simp [ht]
      · simp [ht, hk, AList.lookup_erase_ne hk]

/-- Copying every entry of a map into another one overlays it. -/
theorem rangeLoop_insert_lookup {V : Type} (m init : GoMap V) (k : String) :
    (rangeLoop m (fun vs k v => vs.insert k v) init).lookup k
      = (m.lookup k).orElse (fun _ => init.lookup k) := by
  unfold rangeLoop
  exact foldl_insert_lookup m.entries m.nodupKeys init k

/-- Deleting every key of a map from itself leaves no key. -/
theorem clearValues_lookup (values : GoMap Value) (k : String) :
    (clearValues values).lookup k = none := by
  unfold clearValues rangeLoop
  rw [foldl_erase_lookup]
  split
  · rfl
  · rename_i hk
    exact AList.lookup_eq_none.mpr (fun h => hk (AList.mem_keys.mp h))

theorem applyClaims_lookup (values : GoMap Value) (claims : MapClaims) (k : String) :
    (applyClaims values claims).lookup k
      = (claims.lookup k).orElse (fun _ => values.lookup k) := by
  unfold applyClaims
  exact rangeLoop_insert_lookup claims values k

theorem wrapInt64_of_isInt64 (n : Int) (h : isInt64 n) : wrapInt64 n = n := by
  unfold isInt64 at h
  unfold wrapInt64
  have h1 : (n + 2 ^ 63) % 2 ^ 64 = n + 2 ^ 63 := by
    apply Int.emod_eq_of_lt <;> omega
  omega

/-- The method `makeToken` returns what signing the minted claims returns. -/
theorem makeToken_eq (E : Env) (secret : String) (claims : MapClaims) :
    makeToken E secret claims
      = E.SignedString (NewWithClaims .HS256 (mintClaims claims E.now)) (bytes secret) := by
  show (match E.SignedString (NewWithClaims .HS256 (mintClaims claims E.now)) (bytes secret) with
    | .error err => (Except.error err : Except Error String)
    | .ok tokenString => Except.ok tokenString) = _
  generalize E.SignedString (NewWithClaims .HS256 (mintClaims claims E.now)) (bytes secret) = x
  cases x <;> rfl

/-! ## The token endpoint, step by step -/

theorem ServeHTTP_post {σ : Type} (E : Env) (h : Handler σ) (wd : World σ) (r : Request)
    (hpath : E.Matches r.Path h.SessionPath = true) (hmeth : r.Method = "POST") :
    ServeHTTP E h wd r = updateSession E h wd r true := by
  simp [ServeHTTP, hpath, hmeth]

theorem ServeHTTP_patch {σ : Type} (E : Env) (h : Handler σ) (wd : World σ) (r : Request)
    (hpath : E.Matches r.Path h.SessionPath = true) (hmeth : r.Method = "PATCH") :
    ServeHTTP E h wd r = updateSession E h wd r false := by
  simp [ServeHTTP, hpath, hmeth]

theorem ServeHTTP_get {σ : Type} (E : Env) (h : Handler σ) (wd : World σ) (r : Request)
    (hpath : E.Matches r.Path h.SessionPath = true) (hmeth : r.Method = "GET") :
    ServeHTTP E h wd r = getToken E h wd r := by
  simp [ServeHTTP, hpath, hmeth]

theorem updateSession_no_header {σ : Type} (E : Env) (h : Handler σ) (wd : World σ)
    (r : Request) (clearFirst : Bool) (hhdr : r.Header.Get "Authorization" = "") :
    updateSession E h wd r clearFirst
      = { world := wd, status := 400, err := some "no update supplied" } := by
  simp [updateSession, hhdr]

theorem updateSession_parse_error {σ : Type} (E : Env) (h : Handler σ) (wd : World σ)
    (r : Request) (clearFirst : Bool) (err : Error)
    (hhdr : r.Header.Get "Authorization" ≠ "")
    (hparse : E.Parse (stringsReplace1 (r.Header.Get "Authorization") "Bearer " "")
      (keyFunc h.JWTSecret) = .error err) :
    updateSession E h wd r clearFirst = { world := wd, status := 502, err := some err } := by
  simp [updateSession, hhdr, hparse]

theorem updateSession_parse_ok {σ : Type} (E : Env) (h : Handler σ) (wd : World σ)
    (r : Request) (clearFirst : Bool) (token : Token)
    (hhdr : r.Header.Get "Authorization" ≠ "")
    (hparse : E.Parse (stringsReplace1 (r.Header.Get "Authorization") "Bearer " "")
      (keyFunc h.JWTSecret) = .ok token) :
    updateSession E h wd r clearFirst
      = { world :=
            { store := (h.Store.Save (h.Store.Get wd.store r h.SessionName).1 r wd.w.Header
                { (h.Store.Get wd.store r h.SessionName).2 with
                  Values := updatedValues (h.Store.Get wd.store r h.SessionName).2.Values
                    token clearFirst }).1,
              w := ResponseWriter.Write { wd.w with
                Header := (h.Store.Save (h.Store.Get wd.store r h.SessionName).1 r wd.w.Header
                  { (h.Store.Get wd.store r h.SessionName).2 with
                    Values := updatedValues (h.Store.Get wd.store r h.SessionName).2.Values
                      token clearFirst }).2 } "ok" },
          status := 200, err := none } := by
  simp [updateSession, hhdr, hparse]

theorem updatedValues_valid_lookup (values : GoMap Value) (token : Token) (claims : MapClaims)
    (clearFirst : Bool) (hvalid : token.Valid = true)
    (hclaims : token.Claims = .mapClaims claims) (k : String) :
    (updatedValues values token clearFirst).lookup k
      = (claims.lookup k).orElse
          (fun _ => if clearFirst then none else values.lookup k) := by
  unfold updatedValues
  simp only [hvalid, hclaims]
  rw [applyClaims_lookup]
  cases clearFirst
  · simp
  · simp [clearValues_lookup]

theorem mintClaims_iss (claims : MapClaims) (now : Int) :
    (mintClaims claims now).lookup "iss" = some (Value.str "jwt-proxy") := by
  unfold mintClaims
  rw [AList.lookup_insert_ne (by decide), AList.lookup_insert_ne (by decide),
    AList.lookup_insert]

theorem mintClaims_iat (claims : MapClaims) (now : Int) :
    (mintClaims claims now).lookup "iat" = some (Value.int now) := by
  unfold mintClaims
  rw [AList.lookup_insert_ne (by decide), AList.lookup_insert]

theorem mintClaims_exp (claims : MapClaims) (now : Int) :
    (mintClaims claims now).lookup "exp" = some (Value.int (wrapInt64 (now + 60))) := by
  unfold mintClaims
  rw [AList.lookup_insert]

theorem mintClaims_other (claims : MapClaims) (now : Int) (k : String)
    (h1 : k ≠ "iss") (h2 : k ≠ "iat") (h3 : k ≠ "exp") :
    (mintClaims claims now).lookup k = claims.lookup k := by
  unfold mintClaims
  rw [AList.lookup_insert_ne h3, AList.lookup_insert_ne h2, AList.lookup_insert_ne h1]

/-! ## Claims -/

/-- C1: a POST on the token-endpoint path whose `Authorization` token verifies to
the claim set `V` saves the fetched session with values that hold exactly the
entries of `V`, whatever the session held before: every key maps as in `V`
(reserved keys included), and a key absent from `V` is absent from the session. -/
theorem post_replaces_session {σ : Type} (E : Env) (h : Handler σ) (wd : World σ)
    (r : Request) (token : Token) (V : MapClaims)
    (hpath : E.Matches r.Path h.SessionPath = true) (hmeth : r.Method = "POST")
    (hhdr : r.Header.Get "Authorization" ≠ "")
    (hparse : E.Parse (stringsReplace1 (r.Header.Get "Authorization") "Bearer " "")
      (keyFunc h.JWTSecret) = .ok token)
    (hvalid : token.Valid = true) (hclaims : token.Claims = .mapClaims V) :
    (ServeHTTP E h wd r).world.store
        = (h.Store.Save (h.Store.Get wd.store r h.SessionName).1 r wd.w.Header
            { (h.Store.Get wd.store r h.SessionName).2 with
              Values := updatedValues (h.Store.Get wd.store r h.SessionName).2.Values
                token true }).1
      ∧ ∀ k, (updatedValues (h.Store.Get wd.store r h.SessionName).2.Values token true).lookup k
          = V.lookup k := by
  refine ⟨?_, ?_⟩
  · rw [ServeHTTP_post E h wd r hpath hmeth, updateSession_parse_ok E h wd r true token hhdr hparse]
  · intro k
    rw [updatedValues_valid_lookup _ token V true hvalid hclaims]
    cases V.lookup k <;> simp

/-- C1 on the second POST of the test: the session holds the claims of `tok.a`
(made from `{"a": "one"}`), the POST carries `tok.b` (made from `{"b": "two"}`);
afterwards the session has no key `"a"` and has `b = "two"`. -/
theorem post_replaces_session_witness :
    (updatedValues (memStore.Get worldA.store postB "s").2.Values tokenB true).lookup "a" = none
      ∧ (updatedValues (memStore.Get worldA.store postB "s").2.Values tokenB true).lookup "b"
          = some (Value.str "two") :=
  have h := post_replaces_session (demoEnv 1015) demoHandler worldA postB tokenB
    (mintClaims claimsB 1010) (by rfl) (by rfl) (by decide) (by rfl) rfl rfl
  ⟨(h.2 "a").trans (by decide), (h.2 "b").trans (by decide)⟩

/-- C2: a PATCH on the token-endpoint path whose `Authorization` token verifies to
the claim set `V` saves the fetched session with its prior values `S` overlaid
with `V`: a key of `V` holds the token's value, any other key keeps what `S` had. -/
theorem patch_merges_session {σ : Type} (E : Env) (h : Handler σ) (wd : World σ)
    (r : Request) (token : Token) (V : MapClaims)
    (hpath : E.Matches r.Path h.SessionPath = true) (hmeth : r.Method = "PATCH")
    (hhdr : r.Header.Get "Authorization" ≠ "")
    (hparse : E.Parse (stringsReplace1 (r.Header.Get "Authorization") "Bearer " "")
      (keyFunc h.JWTSecret) = .ok token)
    (hvalid : token.Valid = true) (hclaims : token.Claims = .mapClaims V) :
    (ServeHTTP E h wd r).world.store
        = (h.Store.Save (h.Store.Get wd.store r h.SessionName).1 r wd.w.Header
            { (h.Store.Get wd.store r h.SessionName).2 with
              Values := updatedValues (h.Store.Get wd.store r h.SessionName).2.Values
                token false }).1
      ∧ (∀ k v, V.lookup k = some v →
          (updatedValues (h.Store.Get wd.store r h.SessionName).2.Values token false).lookup k
            = some v)
      ∧ (∀ k, V.lookup k = none →
          (updatedValues (h.Store.Get wd.store r h.SessionName).2.Values token false).lookup k
            = (h.Store.Get wd.store r h.SessionName).2.Values.lookup k) := by
  refine ⟨?_, ?_, ?_⟩
  · rw [ServeHTTP_patch E h wd r hpath hmeth,
      updateSession_parse_ok E h wd r false token hhdr hparse]
  · intro k v hk
    rw [updatedValues_valid_lookup _ token V false hvalid hclaims, hk]
    simp
  · intro k hk
    rw [updatedValues_valid_lookup _ token V false hvalid hclaims, hk]
    simp

/-- C2 on a session that holds the claims of `tok.a`: after a PATCH carrying
`tok.b` the session has both `a = "one"` and `b = "two"`. -/
theorem patch_merges_session_witness :
    (updatedValues (memStore.Get worldA.store patchB "s").2.Values tokenB false).lookup "a"
        = some (Value.str "one")
      ∧ (updatedValues (memStore.Get worldA.store patchB "s").2.Values tokenB false).lookup "b"
          = some (Value.str "two") :=
  have h := patch_merges_session (demoEnv 1015) demoHandler worldA patchB tokenB
    (mintClaims claimsB 1010) (by rfl) (by rfl) (by decide) (by rfl) rfl rfl
  ⟨(h.2.2 "a" (by decide)).trans (by decide), h.2.1 "b" (Value.str "two") (by decide)⟩

/-- C4: for every claim map and every clock reading `now`, `makeToken` signs the
payload that has `iss = "jwt-proxy"`, `iat = now`, `exp` the `int64` sum
`now + 60` (which is the integer `now + 60` whenever that sum stays within
`int64`) and every other key as the input had it; supplied values for the three
reserved keys are overwritten. -/
theorem makeToken_signs_reserved_claims (E : Env) (secret : String) (claims : MapClaims) :
    makeToken E secret claims
        = E.SignedString (NewWithClaims .HS256 (mintClaims claims E.now)) (bytes secret)
      ∧ (mintClaims claims E.now).lookup "iss" = some (Value.str "jwt-proxy")
      ∧ (mintClaims claims E.now).lookup "iat" = some (Value.int E.now)
      ∧ (mintClaims claims E.now).lookup "exp" = some (Value.int (wrapInt64 (E.now + 60)))
      ∧ (isInt64 E.now → E.now + 60 < 2 ^ 63 →
          (mintClaims claims E.now).lookup "exp" = some (Value.int (E.now + 60)))
      ∧ ∀ k, k ≠ "iss" → k ≠ "iat" → k ≠ "exp" →
          (mintClaims claims E.now).lookup k = claims.lookup k := by
  refine ⟨makeToken_eq E secret claims, mintClaims_iss claims E.now,
    mintClaims_iat claims E.now, mintClaims_exp claims E.now, ?_, ?_⟩
  · intro hnow hexp
    have hw : wrapInt64 (E.now + 60) = E.now + 60 :=
      wrapInt64_of_isInt64 _ ⟨by unfold isInt64 at hnow; omega, hexp⟩
    rw [mintClaims_exp, hw]
  · intro k h1 h2 h3
    exact mintClaims_other claims E.now k h1 h2 h3

/-- C4 at the clock reading 1700000000 with a caller-supplied `exp`: the supplied
value is overwritten by 1700000060 and the other key is kept. -/
theorem makeToken_signs_reserved_claims_witness :
    (mintClaims (claimsA.insert "exp" (Value.int 5)) (demoEnv 1700000000).now).lookup "exp"
        = some (Value.int ((demoEnv 1700000000).now + 60))
      ∧ (mintClaims (claimsA.insert "exp" (Value.int 5)) (demoEnv 1700000000).now).lookup "a"
          = some (Value.str "one") :=
  have h := makeToken_signs_reserved_claims (demoEnv 1700000000) "secret"
    (claimsA.insert "exp" (Value.int 5))
  ⟨h.2.2.2.2.1 (by decide) (by decide),
    (h.2.2.2.2.2 "a" (by decide) (by decide) (by decide)).trans (by decide)⟩

/-- C6: a POST or PATCH on the token-endpoint path returns 400 exactly when
the `Authorization` header is missing or empty, and then with an error;
with a header whose token fails to parse or verify it returns 502 and that
error; with a header whose token verifies it returns 200, no error, and has
appended `"ok"` to the body.  The key function fails on every non-HMAC method,
which is one way for the parse to fail. -/
theorem update_status_codes {σ : Type} (E : Env) (h : Handler σ) (wd : World σ)
    (r : Request) (hpath : E.Matches r.Path h.SessionPath = true)
    (hmeth : r.Method = "POST" ∨ r.Method = "PATCH") :
    ((ServeHTTP E h wd r).status = 400 ↔ r.Header.Get "Authorization" = "")
      ∧ (r.Header.Get "Authorization" = "" → (ServeHTTP E h wd r).err ≠ none)
      ∧ (∀ err, r.Header.Get "Authorization" ≠ "" →
          E.Parse (stringsReplace1 (r.Header.Get "Authorization") "Bearer " "")
            (keyFunc h.JWTSecret) = .error err →
          (ServeHTTP E h wd r).status = 502 ∧ (ServeHTTP E h wd r).err = some err)
      ∧ (∀ token, r.Header.Get "Authorization" ≠ "" →
          E.Parse (stringsReplace1 (r.Header.Get "Authorization") "Bearer " "")
            (keyFunc h.JWTSecret) = .ok token →
          (ServeHTTP E h wd r).status = 200 ∧ (ServeHTTP E h wd r).err = none
            ∧ (ServeHTTP E h wd r).world.w.Body = wd.w.Body ++ "ok")
      ∧ (∀ token : Token, token.Method.isHMAC = false →
          keyFunc h.JWTSecret token = .error "Unexpected signing method") := by
  have hserve : ∃ clearFirst, ServeHTTP E h wd r = updateSession E h wd r clearFirst := by
    rcases hmeth with hm | hm
    · exact ⟨true, ServeHTTP_post E h wd r hpath hm⟩
    · exact ⟨false, ServeHTTP_patch E h wd r hpath hm⟩
  obtain ⟨clearFirst, hs⟩ := hserve
  rw [hs]
  refine ⟨?_, ?_, ?_, ?_, ?_⟩
  · constructor
    · intro hst
      by_contra hne
      cases hp : E.Parse (stringsReplace1 (r.Header.Get "Authorization") "Bearer " "")
          (keyFunc h.JWTSecret) with
      | error err =>
        rw [updateSession_parse_error E h wd r clearFirst err hne hp] at hst
        simp at hst
      | ok token =>
        rw [updateSession_parse_ok E h wd r clearFirst token hne hp] at hst
        simp at hst
    · intro he
      rw [updateSession_no_header E h wd r clearFirst he]
  · intro he
    rw [updateSession_no_header E h wd r clearFirst he]
    simp
  · intro err hne hp
    rw [updateSession_parse_error E h wd r clearFirst err hne hp]
    exact ⟨rfl, rfl⟩
  · intro token hne hp
    rw [updateSession_parse_ok E h wd r clearFirst token hne hp]
    exact ⟨rfl, rfl, rfl⟩
  · intro token hm
    simp [keyFunc, hm]

/-- C6 on the demo handler: a POST without the header is answered 400. -/
theorem update_status_codes_witness :
    (ServeHTTP (demoEnv 1015) demoHandler worldA postBare).status = 400
      ∧ (ServeHTTP (demoEnv 1015) demoHandler worldA postBare).err ≠ none :=
  have h := update_status_codes (demoEnv 1015) demoHandler worldA postBare (by rfl)
    (Or.inl (by rfl))
  ⟨h.1.mpr (by decide), h.2.1 (by decide)⟩

/-- C9: a POST or PATCH on the token-endpoint path that is rejected (empty
`Authorization` header, or a token that fails to parse or verify) leaves the
store and the response writer exactly as they were, and its result is the same
for every session store: the session is neither fetched nor cleared nor saved,
and nothing is written to the body. -/
theorem rejected_update_is_atomic {σ : Type} (E : Env) (h : Handler σ) (wd : World σ)
    (r : Request) (hpath : E.Matches r.Path h.SessionPath = true)
    (hmeth : r.Method = "POST" ∨ r.Method = "PATCH")
    (hrej : r.Header.Get "Authorization" = "" ∨
      ∃ err, E.Parse (stringsReplace1 (r.Header.Get "Authorization") "Bearer " "")
        (keyFunc h.JWTSecret) = .error err) :
    (ServeHTTP E h wd r).world = wd
      ∧ (ServeHTTP E h wd r).status ≠ 200
      ∧ ∀ store : Store σ, ServeHTTP E { h with Store := store } wd r = ServeHTTP E h wd r := by
  have key : ∀ h2 : Handler σ, h2.SessionPath = h.SessionPath → h2.JWTSecret = h.JWTSecret →
      ∃ st err, ServeHTTP E h2 wd r = { world := wd, status := st, err := err } ∧ st ≠ 200
        ∧ ServeHTTP E h wd r = { world := wd, status := st, err := err } := by
    intro h2 hsp hsec
    have hpath2 : E.Matches r.Path h2.SessionPath = true := by rw [hsp]; exact hpath
    by_cases he : r.Header.Get "Authorization" = ""
    · refine ⟨400, some "no update supplied", ?_, by decide, ?_⟩
      · rcases hmeth with hm | hm
        · rw [ServeHTTP_post E h2 wd r hpath2 hm, updateSession_no_header E h2 wd r true he]
        · rw [ServeHTTP_patch E h2 wd r hpath2 hm, updateSession_no_header E h2 wd r false he]
      · rcases hmeth with hm | hm
        · rw [ServeHTTP_post E h wd r hpath hm, updateSession_no_header E h wd r true he]
        · rw [ServeHTTP_patch E h wd r hpath hm, updateSession_no_header E h wd r false he]
    · rcases hrej with hr | ⟨err, hp⟩
      · exact absurd hr he
      · have hp2 : E.Parse (stringsReplace1 (r.Header.Get "Authorization") "Bearer " "")
            (keyFunc h2.JWTSecret) = .error err := by rw [hsec]; exact hp
        refine ⟨502, some err, ?_, by decide, ?_⟩
        · rcases hmeth with hm | hm
          · rw [ServeHTTP_post E h2 wd r hpath2 hm,
              updateSession_parse_error E h2 wd r true err he hp2]
          · rw [ServeHTTP_patch E h2 wd r hpath2 hm,
              updateSession_parse_error E h2 wd r false err he hp2]
        · rcases hmeth with hm | hm
          · rw [ServeHTTP_post E h wd r hpath hm,
              updateSession_parse_error E h wd r true err he hp]
          · rw [ServeHTTP_patch E h wd r hpath hm,
              updateSession_parse_error E h wd r false err he hp]
  refine ⟨?_, ?_, ?_⟩
  · obtain ⟨st, err, _, _, h1⟩ := key h rfl rfl
    rw [h1]
  · obtain ⟨st, err, _, hst, h1⟩ := key h rfl rfl
    rw [h1]
    exact hst
  · intro store
    obtain ⟨st, err, h2, _, h1⟩ := key { h with Store := store } rfl rfl
    rw [h1, h2]

/-- C9 on the demo handler: a POST with a forged token leaves the session that
holds the claims of `tok.a` in place. -/
theorem rejected_update_is_atomic_witness :
    (ServeHTTP (demoEnv 1015) demoHandler worldA postForged).world = worldA :=
  (rejected_update_is_atomic (demoEnv 1015) demoHandler worldA postForged (by rfl)
    (Or.inl (by rfl))
    (Or.inr ⟨"token contains an invalid number of segments", by rfl⟩)).1

/-- C8: on a path that matches the token-endpoint path the result of `ServeHTTP`
is that of the token-endpoint branch for the method (update with clearing,
update without, token fetch, or 400), and it is the same for every next handler
and every base path, so neither the next handler nor the proxy injector runs;
on a path that matches neither path the result is that of the next handler on
the unchanged request. -/
theorem router_precedence {σ : Type} (E : Env) (h : Handler σ) (wd : World σ) (r : Request) :
    (E.Matches r.Path h.SessionPath = true →
        ServeHTTP E h wd r
            = (if r.Method = "POST" then updateSession E h wd r true
              else if r.Method = "PATCH" then updateSession E h wd r false
              else if r.Method = "GET" then getToken E h wd r
              else { world := wd, status := 400, err := some "bad method for session req" })
          ∧ ∀ (next : Request → World σ → Result σ) (basePath : String),
              ServeHTTP E { h with Next := next, BasePath := basePath } wd r
                = ServeHTTP E h wd r)
      ∧ (E.Matches r.Path h.SessionPath = false → E.Matches r.Path h.BasePath = false →
          ServeHTTP E h wd r = h.Next r wd) := by
  refine ⟨?_, ?_⟩
  · intro hpath
    refine ⟨by simp [ServeHTTP, hpath], ?_⟩
    intro next basePath
    simp only [ServeHTTP, hpath, if_true]
    simp only [updateSession, getToken, getSessionClaims]
  · intro h1 h2
    simp [ServeHTTP, h1, h2]

/-- C8 on a handler whose base path `/` also matches `/token` and whose next
handler fails with 500: a DELETE on `/token` is answered 400 by the
token-endpoint branch, and a GET on `/something` is answered by the demo next
handler. -/
theorem router_precedence_witness :
    (ServeHTTP (demoEnv 1020) overlapHandler worldB deleteReq).status = 400
      ∧ ServeHTTP (demoEnv 1020) demoHandler worldB otherReq = demoNext otherReq worldB :=
  have h1 := router_precedence (demoEnv 1020) overlapHandler worldB deleteReq
  have h2 := router_precedence (demoEnv 1020) demoHandler worldB otherReq
  ⟨((h1.1 (by rfl)).1).symm ▸ (by rfl), h2.2 (by rfl) (by rfl)⟩

/-- The claims read from the session map every key as the session does. -/
theorem getSessionClaims_lookup {σ : Type} (h : Handler σ) (wd : World σ) (r : Request)
    (k : String) :
    (getSessionClaims h wd r).2.lookup k
      = (h.Store.Get wd.store r h.SessionName).2.Values.lookup k := by
  unfold getSessionClaims
  simp only [rangeLoop_insert_lookup]
  cases AList.lookup k (h.Store.Get wd.store r h.SessionName).2.Values <;> simp

theorem getSessionClaims_store {σ : Type} (h : Handler σ) (wd : World σ) (r : Request) :
    (getSessionClaims h wd r).1 = (h.Store.Get wd.store r h.SessionName).1 := by
  unfold getSessionClaims
  rfl

/-- C5: on a path under the base path that does not match the token-endpoint
path, a request with a non-empty `Authorization` header goes to the next handler
as it is; a request without one, when minting from the session's claims returns
the token `tok`, goes to the next handler with `Authorization` set to exactly
`"Bearer: " ++ tok`, everything else unchanged. -/
theorem proxy_injects_bearer {σ : Type} (E : Env) (h : Handler σ) (wd : World σ)
    (r : Request) (hnot : E.Matches r.Path h.SessionPath = false)
    (hbase : E.Matches r.Path h.BasePath = true) :
    (r.Header.Get "Authorization" ≠ "" → ServeHTTP E h wd r = h.Next r wd)
      ∧ (∀ tok, r.Header.Get "Authorization" = "" →
          makeToken E h.JWTSecret (getSessionClaims h wd r).2 = .ok tok →
          ServeHTTP E h wd r
              = h.Next { r with Header := r.Header.Set "Authorization" ("Bearer: " ++ tok) }
                  { wd with store := (h.Store.Get wd.store r h.SessionName).1 }
            ∧ (r.Header.Set "Authorization" ("Bearer: " ++ tok)).Get "Authorization"
                = "Bearer: " ++ tok)
      ∧ ∀ k, (getSessionClaims h wd r).2.lookup k
          = (h.Store.Get wd.store r h.SessionName).2.Values.lookup k := by
  refine ⟨?_, ?_, ?_⟩
  · intro hne
    simp [ServeHTTP, hnot, hbase, proxyWithJWT, hne]
  · intro tok he hmint
    refine ⟨?_, ?_⟩
    · rw [← getSessionClaims_store h wd r]
      simp only [ServeHTTP, hnot, hbase, proxyWithJWT, he]
      simp [hmint]
    · simp [Header.Get, Header.Set, AList.lookup_insert]
  · intro k
    exact getSessionClaims_lookup h wd r k

/-- C5 on the demo handler: a request with its own credentials reaches the next
handler unchanged, and one without reaches it with `Bearer: tok.g`, the token
minted from the session `{"b": "two"}` at the clock reading 1020. -/
theorem proxy_injects_bearer_witness :
    ServeHTTP (demoEnv 1020) demoHandler worldB baseAuthReq = demoNext baseAuthReq worldB
      ∧ (ServeHTTP (demoEnv 1020) demoHandler worldB baseReq).world.w.Header.lookup
          "X-Seen-Authorization" = some ["Bearer: tok.g"] :=
  have h1 := proxy_injects_bearer (demoEnv 1020) demoHandler worldB baseAuthReq (by rfl) (by rfl)
  have h2 := proxy_injects_bearer (demoEnv 1020) demoHandler worldB baseReq (by rfl) (by rfl)
  ⟨h1.1 (by decide), (h2.2.1 "tok.g" (by decide) (by rfl)).1 ▸ (by decide)⟩

/-- C7 (as stated, refuted): on the demo handler a GET on the token endpoint
mints `tok.g`, writes it as the body and returns no error, and the status it
returns is 0, not 200. -/
theorem getToken_returns_zero_counterexample :
    makeToken (demoEnv 1020) demoHandler.JWTSecret
        (getSessionClaims demoHandler worldB getReq).2 = .ok "tok.g"
      ∧ (ServeHTTP (demoEnv 1020) demoHandler worldB getReq).err = none
      ∧ (ServeHTTP (demoEnv 1020) demoHandler worldB getReq).world.w.Body = "tok.g"
      ∧ (ServeHTTP (demoEnv 1020) demoHandler worldB getReq).status = 0
      ∧ (ServeHTTP (demoEnv 1020) demoHandler worldB getReq).status ≠ 200 :=
  ⟨by rfl, by rfl, by decide, by decide, by decide⟩

/-- C7 (amended): a GET on the token-endpoint path, when minting from the
session's claims returns the token `tok`, returns status 0 and no error, appends
exactly `tok` to the body and, when no status line was written before, sends
the status line 200 with that first write; when minting fails with `err` it
returns 400 and `err` and leaves the response writer untouched. -/
theorem getToken_writes_token {σ : Type} (E : Env) (h : Handler σ) (wd : World σ)
    (r : Request) (hpath : E.Matches r.Path h.SessionPath = true) (hmeth : r.Method = "GET") :
    (∀ tok, makeToken E h.JWTSecret (getSessionClaims h wd r).2 = .ok tok →
        (ServeHTTP E h wd r).status = 0 ∧ (ServeHTTP E h wd r).err = none
          ∧ (ServeHTTP E h wd r).world.w.Body = wd.w.Body ++ tok
          ∧ (ServeHTTP E h wd r).world.w.Code = some (wd.w.Code.getD 200)
          ∧ (ServeHTTP E h wd r).world.w.Header = wd.w.Header)
      ∧ (∀ err, makeToken E h.JWTSecret (getSessionClaims h wd r).2 = .error err →
          (ServeHTTP E h wd r).status = 400 ∧ (ServeHTTP E h wd r).err = some err
            ∧ (ServeHTTP E h wd r).world.w = wd.w)
      ∧ ∀ k, (getSessionClaims h wd r).2.lookup k
          = (h.Store.Get wd.store r h.SessionName).2.Values.lookup k := by
  rw [ServeHTTP_get E h wd r hpath hmeth]
  refine ⟨?_, ?_, ?_⟩
  · intro tok hmint
    simp [getToken, hmint, ResponseWriter.Write]
  · intro err hmint
    simp [getToken, hmint]
  · intro k
    exact getSessionClaims_lookup h wd r k

/-- C7 (amended) on the demo handler: the GET returns 0, the recorder holds the
status line 200 and the body `tok.g`. -/
theorem getToken_writes_token_witness :
    (ServeHTTP (demoEnv 1020) demoHandler worldB getReq).status = 0
      ∧ (ServeHTTP (demoEnv 1020) demoHandler worldB getReq).world.w.Code = some 200
      ∧ (ServeHTTP (demoEnv 1020) demoHandler worldB getReq).world.w.Body = "" ++ "tok.g" :=
  have h := (getToken_writes_token (demoEnv 1020) demoHandler worldB getReq (by rfl)
    (by rfl)).1 "tok.g" (by rfl)
  ⟨h.1, h.2.2.2.1, h.2.2.1⟩

/-- C10: the handler `config.Handler` builds is the same for any two session
keys put into the config, and its store is `NewCookieStore` applied to the
bytes of `SessionName`; yet `sessionParse` returns an error whenever the config
it returns has an empty `SessionKey`. -/
theorem handler_ignores_session_key {σ : Type} (NewCookieStore : List UInt8 → Store σ)
    (cfg : config) (key₁ key₂ : String) (next : Request → World σ → Result σ)
    (c : Controller) :
    config.Handler NewCookieStore { cfg with SessionKey := key₁ } next
        = config.Handler NewCookieStore { cfg with SessionKey := key₂ } next
      ∧ (config.Handler NewCookieStore cfg next).Store = NewCookieStore (bytes cfg.SessionName)
      ∧ ((sessionParse c).2 ≠ none ∨ (sessionParse c).1.SessionKey ≠ "") := by
  refine ⟨rfl, rfl, ?_⟩
  unfold sessionParse
  cases c.args with
  | nil => left; simp
  | cons base rest =>
    simp only
    generalize parseBlock _ c.block = res
    obtain ⟨cfg2, e⟩ := res
    cases e with
    | some err => left; simp
    | none =>
      simp only
      by_cases hk : cfg2.JWTSecret = "" ∨ cfg2.SessionKey = ""
      · left
        rw [if_pos hk]
        simp
      · right
        rw [if_neg hk]
        have hkey : cfg2.SessionKey ≠ "" := fun h => hk (Or.inr h)
        simp only
        split <;> split <;> exact hkey

/-- The directive of `TestSessionParse` parses to the config the test expects. -/
theorem sessionParse_test : sessionParse { args := ["/"], block := [("sessionPath", ["/token"]),
    ("sessionName", ["s"]), ("jwtSecret", ["secret"]), ("sessionKey", ["key"])] }
  = ({ BasePath := "/", SessionPath := "/token", SessionName := "s", JWTSecret := "secret",
       SessionKey := "key" }, none) := by decide

/-! ## The round trip through the session -/

end JwtSession
